import Mathlib

/-!
Verification of the CAST backend vote/tally controllers
(`backend/main/server/controllers.go`) against its specification.

The Go handlers are shallowly embedded: each handler becomes a pure Lean
function over explicit inputs standing for the request, the fetched
records and the outcomes of collaborator calls (database, IPFS, chain).
The package-level error-response singletons are embedded as values; for
the handlers that mutate them, the mutable package state is threaded
explicitly as a `ServerState`. The HTTP response writer is embedded as a
record accumulating the written status code and body chunks, with Go's
`WriteHeader` semantics (the first written status wins, later calls are
ignored, `Write` appends).
-/

namespace CAST

/-- Embeds the Go `errorResponse` struct of `controllers.go`. -/
structure errorResponse where
  StatusCode : Nat
  ErrorCode : String
  Message : String
  Details : String
deriving DecidableEq, Repr

/-- `errIncompleteRequest` singleton (its initial value). -/
def errIncompleteRequest : errorResponse :=
  { StatusCode := 400, ErrorCode := "ERR_1001", Message := "Error",
    Details := "There was an error trying to complete your request" }

/-- `errCreateCommunity` singleton (its initial value). -/
def errCreateCommunity : errorResponse :=
  { StatusCode := 400, ErrorCode := "ERR_1002", Message := "Error",
    Details := "There was an error trying to create your community" }

/-- `errFetchingBalance` singleton. -/
def errFetchingBalance : errorResponse :=
  { StatusCode := 400, ErrorCode := "ERR_1003", Message := "Error Fetching Balance",
    Details := "Flow blockchain connection error while confirming balance" }

/-- `errInsufficientBalance` singleton. -/
def errInsufficientBalance : errorResponse :=
  { StatusCode := 401, ErrorCode := "ERR_1004", Message := "Insufficient Balance",
    Details := "Minimum balance required to vote on this proposal" }

/-- `errForbidden` singleton. -/
def errForbidden : errorResponse :=
  { StatusCode := 403, ErrorCode := "ERR_1005", Message := "Forbidden",
    Details := "You are not authorized to perform this action." }

/-- `errStrategyNotFound` singleton. -/
def errStrategyNotFound : errorResponse :=
  { StatusCode := 404, ErrorCode := "ERR_1008", Message := "Strategy Not Found",
    Details := "The strategy name you are trying to use no longer exists." }

/-- `errAlreadyVoted` singleton. -/
def errAlreadyVoted : errorResponse :=
  { StatusCode := 400, ErrorCode := "ERR_1009", Message := "Error",
    Details := "Address has already voted for proposal." }

/-- `errInactiveProposal` singleton. -/
def errInactiveProposal : errorResponse :=
  { StatusCode := 400, ErrorCode := "ERR_1010", Message := "Error",
    Details := "Cannot vote on an inactive proposal." }

/-- Embeds `shared.PageParams` as used by `getPageParams` (Go `int` is a
signed machine integer; the parsed values are small, so `Int` is exact). -/
structure PageParams where
  Start : Int
  Count : Int
  Order : String
deriving DecidableEq, Repr

/-- Embeds `getPageParams(r, defaultCount)`. `s` and `c` are the results of
`strconv.Atoi` on the `start` and `count` form values (Go ignores the
conversion error, leaving `0` on failure, so the caller passes that `0`
here), `o` is the `order` form value. -/
def getPageParams (s c : Int) (o : String) (defaultCount : Int) : PageParams :=
  let o := if o = "" then "desc" else o
  let c := if c > defaultCount ∨ c < 1 then defaultCount else c
  let s := if s < 0 then 0 else s
  { Start := s, Count := c, Order := o }

/-- Embeds `models.Strategy` restricted to the field `validateConractThreshold`
reads. `Threshold` is a nullable numeric pointer; `ℚ` models the numeric
comparison `*s.Threshold < 1` exactly. -/
structure Strategy where
  Threshold : Option ℚ
deriving DecidableEq

/-- Embeds `validateConractThreshold(s []models.Strategy) error`: the Go
loop returns the error at the first strategy whose non-nil threshold is
below 1, else `nil` (here `none`). -/
def validateConractThreshold : List Strategy → Option String
  | [] => none
  | s :: rest =>
    match s.Threshold with
    | some t =>
      if t < 1 then some "Contract Threshold Cannot Be < 1."
      else validateConractThreshold rest
    | none => validateConractThreshold rest

/-! ## Vote ledger (spec-modelled persistence) -/

/-- Embeds the `models.Vote` record: proposal reference, voter address,
selected choice, weight captured at cast time. -/
structure Vote where
  Proposal_id : Nat
  Addr : String
  Choice : String
  Weight : Int
deriving DecidableEq, Repr

/-- `true` when the ledger already holds a vote for `(p, a)`. -/
def hasVote (l : List Vote) (p : Nat) (a : String) : Bool :=
  l.any fun v => v.Proposal_id = p && v.Addr = a

/-- Number of stored votes for `(p, a)` in the ledger. -/
def countVotes (l : List Vote) (p : Nat) (a : String) : Nat :=
  (l.filter fun v => v.Proposal_id = p && v.Addr = a).length

/-- Result of one cast attempt, as `helpers.createVote` reports it to
`createVoteForProposal` (a created vote, or an `errorResponse`). -/
inductive CastResult where
  | ok (v : Vote)
  | err (e : errorResponse)
deriving DecidableEq, Repr

/-- Modelled from the spec: `helpers.createVote` and the vote persistence
layer are not in the excerpt; §5 requires vote uniqueness to be "enforced
by the persistence layer's own uniqueness constraint" on
`(proposalId, address)`, with a duplicate insert surfacing as
`AlreadyVoted`. The insert is atomic: it fails and leaves the ledger
unchanged when a vote for the pair exists, else stores the vote. -/
def castVote (l : List Vote) (v : Vote) : CastResult × List Vote :=
  if hasVote l v.Proposal_id v.Addr then (.err errAlreadyVoted, l)
  else (.ok v, v :: l)

/-- Runs a sequence of cast attempts against the ledger. Concurrent
attempts serialise at the uniqueness constraint, so an arbitrary
interleaving of N concurrent casts is some sequential order of them. -/
def runCasts : List Vote → List Vote → List CastResult × List Vote
  | [], l => ([], l)
  | v :: vs, l =>
    let r := castVote l v
    let rest := runCasts vs r.2
    (r.1 :: rest.1, rest.2)

/-! ## HTTP response writer and the results handler -/

/-- Embeds Go's `http.ResponseWriter` as observed through `respondWithJSON`:
`WriteHeader` records the first status code written and ignores later
calls (a second call is "superfluous" in Go and changes nothing);
`Write` appends to the body. Body chunks are the marshalled JSON
payloads, abstracted as strings. -/
structure ResponseWriter where
  status : Option Nat
  body : List String
deriving DecidableEq, Repr

/-- A fresh writer, before the handler runs. -/
def newWriter : ResponseWriter := { status := none, body := [] }

/-- `w.WriteHeader(code)`: only the first written status takes effect. -/
def writeHeader (w : ResponseWriter) (code : Nat) : ResponseWriter :=
  match w.status with
  | some _ => w
  | none => { w with status := some code }

/-- `w.Write(payload)`: appends to the response body. -/
def bodyWrite (w : ResponseWriter) (payload : String) : ResponseWriter :=
  { w with body := w.body ++ [payload] }

/-- Embeds `respondWithJSON(w, code, payload)`. -/
def respondWithJSON (w : ResponseWriter) (code : Nat) (payload : String) : ResponseWriter :=
  bodyWrite (writeHeader w code) payload

/-- The marshalled body of an error response, abstracted by its fields. -/
def errorBody (e : errorResponse) : String :=
  e.ErrorCode ++ ":" ++ toString e.StatusCode ++ ":" ++ e.Message

/-- Embeds `respondWithError(w, err)`: a JSON response at the error's own
status code. -/
def respondWithError (w : ResponseWriter) (e : errorResponse) : ResponseWriter :=
  respondWithJSON w e.StatusCode (errorBody e)

/-- Embeds the fields of `models.Proposal` the handlers read. Go pointer
fields (`Strategy`, `Status`, `Computed_status`, `Cid`) are `Option`s;
dereferencing `none` is the nil-pointer panic. -/
structure Proposal where
  ID : Nat
  Community_id : Nat
  Strategy : Option String
  Status : Option String
  Computed_status : Option String
  Achievements_done : Bool
  Cid : Option String
deriving DecidableEq, Repr

/-- The Go zero value of `models.Proposal`: what `proposal` holds when
`helpers.fetchProposal` returns an error that the caller ignores. -/
def zeroProposal : Proposal :=
  { ID := 0, Community_id := 0, Strategy := none, Status := none,
    Computed_status := none, Achievements_done := false, Cid := none }

/-- Outcome of running a handler: a completed response, or a runtime
panic (nil-pointer dereference) before any response is written. -/
inductive Outcome where
  | crashed
  | responded (w : ResponseWriter)
deriving DecidableEq, Repr

/-- Embeds `getResultsForProposal`. Inputs stand for the collaborator
results: `fetch` is `helpers.fetchProposal` (`none` = error), `votesRes`
is `models.GetAllVotesForProposal`, `tallyRes` is
`helpers.useStrategyTally` (its marshalled result abstracted as a
string), `awardRes` is `models.AddWinningVoteAchievement`.

Faithful to the source: the error from `fetchProposal` is NOT checked
(the Go code overwrites `err` on the next line), so on fetch failure the
zero-value proposal flows on and `*proposal.Strategy` dereferences nil;
and in the achievement branch `respondWithError` is not followed by
`return`, so control falls through to the final `respondWithJSON`. -/
def getResultsForProposal (fetch : Option Proposal)
    (votesRes : Option (List Vote)) (tallyRes : Option String)
    (awardRes : Option Unit) : Outcome :=
  let proposal := match fetch with
    | some p => p
    | none => zeroProposal
  match proposal.Strategy with
  | none => .crashed
  | some _ =>
    match votesRes with
    | none => .responded (respondWithError newWriter errIncompleteRequest)
    | some _ =>
      match tallyRes with
      | none => .responded (respondWithError newWriter errIncompleteRequest)
      | some results =>
        match proposal.Computed_status with
        | none => .crashed
        | some cs =>
          let w := newWriter
          let w :=
            if cs = "closed" && !proposal.Achievements_done then
              match awardRes with
              | none => respondWithError w errIncompleteRequest
              | some _ => w
            else w
          .responded (respondWithJSON w 200 results)

/-! ## Achievement trigger under concurrent tally reads -/

/-- The persisted achievement state of one proposal: the
`achievements_done` flag and how many times the awarding side effect has
executed. -/
structure AchState where
  achievements_done : Bool
  awardCount : Nat
deriving DecidableEq, Repr

/-- Modelled from the spec: `models.AddWinningVoteAchievement` is not in
the excerpt. Per §4.5 it performs the awarding side effect and flips
`achievements_done` to true; per the §9 design note, the observed design
is a plain "read flag, then conditionally act" sequence — the guard is
the caller's in-memory check of the fetched flag, with no conditional
update inside the persistence step itself. -/
def addWinningVoteAchievement (s : AchState) : AchState :=
  { achievements_done := true, awardCount := s.awardCount + 1 }

/-- One atomic step of a concurrent tally-read request `i` against the
shared store: `fetch i` is `helpers.fetchProposal` reading the current
`achievements_done` into the request's local copy; `award i` is the
guarded branch of `getResultsForProposal`, which consults the LOCAL copy
(the flag as it stood at fetch time) before calling
`AddWinningVoteAchievement`. -/
inductive TallyStep where
  | fetch (i : Nat)
  | award (i : Nat)

/-- Interleaved-execution state: the shared store plus each request's
fetched copy of the flag (`none` until that request has fetched). -/
structure RunState where
  db : AchState
  localFlag : Nat → Option Bool

/-- Small-step semantics of the tally-read race. `closed` is whether the
proposal's computed status is the closed terminal state (fixed for the
duration of the race). -/
def stepTally (closed : Bool) (st : RunState) : TallyStep → RunState
  | .fetch i =>
    { st with localFlag := fun j =>
        if j = i then some st.db.achievements_done else st.localFlag j }
  | .award i =>
    match st.localFlag i with
    | some false =>
      if closed then { st with db := addWinningVoteAchievement st.db } else st
    | _ => st

/-- Runs an interleaving of tally-read steps. -/
def runTally (closed : Bool) (steps : List TallyStep) (st : RunState) : RunState :=
  steps.foldl (stepTally closed) st

/-- The initial race state: a newly-closed proposal whose achievements
are not yet done, no request has fetched yet. -/
def initRace : RunState :=
  { db := { achievements_done := false, awardCount := 0 },
    localFlag := fun _ => none }

/-! ## Proposal update handler -/

/-- Embeds the voucher envelope as `updateProposal` and
`helpers.validateUserWithRoleViaVoucher` consume it: the signer address
and (abstracting the cryptographic check) whether its embedded composite
signatures verify against the signer's account. -/
structure Voucher where
  signer : String
  signaturesValid : Bool
deriving DecidableEq, Repr

/-- A community role grant `(community_id, addr, user_type)`, mirroring
the `community_users` table. -/
structure RoleGrant where
  community_id : Nat
  addr : String
  user_type : String
deriving DecidableEq, Repr

/-- Privilege level of a role: admin implies author implies member (§4.2). -/
def roleLevel : String → Nat
  | "admin" => 3
  | "author" => 2
  | "member" => 1
  | _ => 0

/-- Whether `a` holds `required` (or a higher-privilege role implying it)
in community `cid`. -/
def hasRole (grants : List RoleGrant) (a : String) (cid : Nat) (required : String) : Bool :=
  grants.any fun g =>
    g.community_id = cid && g.addr = a && decide (roleLevel required ≤ roleLevel g.user_type)

/-- Modelled from the spec: `helpers.validateUserWithRole` is not in the
excerpt. §4.1 direct path: verify the composite signatures for the
claimed address (abstracted by `sigValid`), then check the required
community role; either failure rejects. -/
def validateUserWithRole (sigValid : Bool) (grants : List RoleGrant)
    (addr : String) (cid : Nat) (required : String) : Bool :=
  sigValid && hasRole grants addr cid required

/-- Modelled from the spec: `helpers.validateUserWithRoleViaVoucher` is
not in the excerpt. §4.1 voucher path: verify the voucher's own embedded
signatures against the voucher signer's identity, and separately check
that the signer holds the required role for the community; either
failure rejects. -/
def validateUserWithRoleViaVoucher (grants : List RoleGrant)
    (vch : Voucher) (cid : Nat) (required : String) : Bool :=
  vch.signaturesValid && hasRole grants vch.signer cid required

/-- Embeds `models.UpdateProposalRequestPayload` as `updateProposal`
reads it. `sigValid` abstracts the `(Timestamp, Composite_signatures)`
pair by the outcome of its cryptographic verification. -/
structure UpdatePayload where
  Status : String
  Voucher : Option Voucher
  Signing_addr : String
  sigValid : Bool
deriving DecidableEq, Repr

/-- Result of `updateProposal`: the updated proposal on success, or the
error response written. -/
inductive UpdateResult where
  | ok (p : Proposal)
  | err (e : errorResponse)
deriving DecidableEq, Repr

/-- Embeds `updateProposal`. `fetch` is `helpers.fetchProposal` (`none` =
invalid id), `payload` is the validated request payload (`none` = bad
payload), `grants` the community role table, `pin` the result of
`helpers.pinJSONToIpfs`, `dbOk` whether `p.UpdateProposal(a.DB)`
succeeds. Faithful to the source: the only status-value check is
`payload.Status != "cancelled"`; the proposal's current or computed
status is never consulted. -/
def updateProposal (fetch : Option Proposal) (payload : Option UpdatePayload)
    (grants : List RoleGrant) (pin : Option String) (dbOk : Bool) : UpdateResult :=
  match fetch with
  | none => .err errIncompleteRequest
  | some p =>
    match payload with
    | none => .err errIncompleteRequest
    | some pl =>
      if pl.Status ≠ "cancelled" then .err errIncompleteRequest
      else
        let authOk :=
          match pl.Voucher with
          | some vch => validateUserWithRoleViaVoucher grants vch p.Community_id "author"
          | none => validateUserWithRole pl.sigValid grants pl.Signing_addr p.Community_id "author"
        if !authOk then .err errForbidden
        else
          match pin with
          | none => .err errIncompleteRequest
          | some cid =>
            if dbOk then .ok { p with Status := some pl.Status, Cid := some cid }
            else .err errIncompleteRequest

/-! ## Package-level mutable error singletons -/

/-- The mutable package state of `controllers.go`: the two error-response
singletons that handlers assign to (`errIncompleteRequest.StatusCode =
httpStatus` and `errCreateCommunity.StatusCode = httpStatus`). All
requests share this state. -/
structure ServerState where
  errIncompleteRequest : errorResponse
  errCreateCommunity : errorResponse
deriving DecidableEq, Repr

/-- The package state at program start: the singletons hold their
initial values. -/
def initialServerState : ServerState :=
  { errIncompleteRequest := errIncompleteRequest,
    errCreateCommunity := errCreateCommunity }

/-- Embeds `addAddressesToList`. `idOk` is whether `strconv.Atoi` on the
list id succeeds, `payloadOk` whether `validatePayload` succeeds, `upd`
the outcome of `helpers.updateAddressesInList` (`some h` = failure with
http status `h`). Returns the error response written (`none` = success)
and the package state after the request. Faithful to the source: on
helper failure it assigns `errIncompleteRequest.StatusCode = httpStatus`
but then responds with `errCreateCommunity`. -/
def addAddressesToList (st : ServerState) (idOk payloadOk : Bool)
    (upd : Option Nat) : Option errorResponse × ServerState :=
  if !idOk then (some st.errIncompleteRequest, st)
  else if !payloadOk then (some st.errIncompleteRequest, st)
  else
    match upd with
    | some h =>
      let st' := { st with errIncompleteRequest :=
        { st.errIncompleteRequest with StatusCode := h } }
      (some st'.errCreateCommunity, st')
    | none => (none, st)

/-- Embeds `removeAddressesFromList`: on helper failure it assigns
`errIncompleteRequest.StatusCode = httpStatus` and responds with the
mutated `errIncompleteRequest`. -/
def removeAddressesFromList (st : ServerState) (idOk payloadOk : Bool)
    (upd : Option Nat) : Option errorResponse × ServerState :=
  if !idOk then (some st.errIncompleteRequest, st)
  else if !payloadOk then (some st.errIncompleteRequest, st)
  else
    match upd with
    | some h =>
      let st' := { st with errIncompleteRequest :=
        { st.errIncompleteRequest with StatusCode := h } }
      (some st'.errIncompleteRequest, st')
    | none => (none, st)

/-- Embeds `createListForCommunity`: on helper failure it assigns
`errIncompleteRequest.StatusCode = httpStatus` and responds with the
mutated `errIncompleteRequest`. -/
def createListForCommunity (st : ServerState) (idOk payloadOk : Bool)
    (create : Option Nat) : Option errorResponse × ServerState :=
  if !idOk then (some st.errIncompleteRequest, st)
  else if !payloadOk then (some st.errIncompleteRequest, st)
  else
    match create with
    | some h =>
      let st' := { st with errIncompleteRequest :=
        { st.errIncompleteRequest with StatusCode := h } }
      (some st'.errIncompleteRequest, st')
    | none => (none, st)

/-- Embeds `createCommunityUser`: on helper failure it assigns
`errCreateCommunity.StatusCode = httpStatus` and responds with the
mutated `errCreateCommunity`. -/
def createCommunityUser (st : ServerState) (idOk payloadOk : Bool)
    (create : Option Nat) : Option errorResponse × ServerState :=
  if !idOk then (some st.errIncompleteRequest, st)
  else if !payloadOk then (some st.errIncompleteRequest, st)
  else
    match create with
    | some h =>
      let st' := { st with errCreateCommunity :=
        { st.errCreateCommunity with StatusCode := h } }
      (some st'.errCreateCommunity, st')
    | none => (none, st)

/-! ## Weighted tally -/

/-- Modelled from the spec: `helpers.useStrategyTally` is not in the
excerpt. §4.4: `tally(proposal) -> mapping(choice -> aggregateWeight)`
sums live-recomputed weights (`weightOf` is the Strategy Engine's
`computeWeight` at the proposal's fixed snapshot, a function of the
voter's address) grouped by choice over all votes for the proposal. -/
def tally (weightOf : String → Int) (votes : List Vote) (choice : String) : Int :=
  ((votes.filter fun v => v.Choice = choice).map fun v => weightOf v.Addr).sum

/-- The tally sum: total of the grouped tally over the distinct choices
occurring in the vote list. -/
def tallySum (weightOf : String → Int) (votes : List Vote) : Int :=
  (((votes.map Vote.Choice).dedup).map (tally weightOf votes)).sum

/-- The strategy-validation gate of `createCommunity` (and
`updateCommunity`): when the payload carries a strategy list, the
contract-threshold validator runs and an error rejects the request with
`errIncompleteRequest` before anything is persisted. The call site
spells the validator `validateContractThreshold`; the excerpt defines
`validateConractThreshold`, taken to be the same routine. -/
def createCommunityValidateStrategies : Option (List Strategy) → Option errorResponse
  | some ss =>
    if (validateConractThreshold ss).isSome then some errIncompleteRequest else none
  | none => none

/-! ## Concrete records used in counterexamples and witnesses -/

/-- A proposal whose computed status is the closed terminal state
(naturally expired: persisted status still `published`), achievements
not yet awarded. -/
def closedProposal : Proposal :=
  { ID := 1, Community_id := 1, Strategy := some "one-address-one-vote",
    Status := some "published", Computed_status := some "closed",
    Achievements_done := false, Cid := none }

/-- A cancellation payload authorized through the direct
composite-signature path. -/
def cancelPayload : UpdatePayload :=
  { Status := "cancelled", Voucher := none, Signing_addr := "0xA", sigValid := true }

/-- Role table granting `author` in community 1 to the payload signer. -/
def authorGrants : List RoleGrant := [⟨1, "0xA", "author"⟩]

/-! ## Theorems -/

/-- C7: for every request, the derived pagination parameters satisfy:
count is clamped to the configured maximum (any count above the maximum
or below 1 becomes the configured default/maximum), start is floored at
zero (any negative start becomes 0), and a missing order defaults to
"desc", so the returned `PageParams` always have `1 ≤ count ≤ max` and
`start ≥ 0`. -/
theorem getPageParams_clamped (s c : Int) (o : String) (d : Int) (hd : 1 ≤ d) :
    1 ≤ (getPageParams s c o d).Count ∧ (getPageParams s c o d).Count ≤ d ∧
    0 ≤ (getPageParams s c o d).Start ∧
    (o = "" → (getPageParams s c o d).Order = "desc") ∧
    (c > d ∨ c < 1 → (getPageParams s c o d).Count = d) ∧
    (s < 0 → (getPageParams s c o d).Start = 0) := by
  unfold getPageParams
  by_cases h1 : c > d ∨ c < 1 <;> by_cases h2 : s < 0 <;> by_cases h3 : o = "" <;>
    simp [h1, h2, h3] <;> omega

/-- Witness for C7 at a concrete request. -/
theorem getPageParams_clamped_witness :
    1 ≤ (getPageParams (-3) 40 "" 25).Count ∧ (getPageParams (-3) 40 "" 25).Count ≤ 25 ∧
    0 ≤ (getPageParams (-3) 40 "" 25).Start ∧
    ((("" : String) = "") → (getPageParams (-3) 40 "" 25).Order = "desc") ∧
    ((40 : Int) > 25 ∨ (40 : Int) < 1 → (getPageParams (-3) 40 "" 25).Count = 25) ∧
    ((-3 : Int) < 0 → (getPageParams (-3) 40 "" 25).Start = 0) :=
  getPageParams_clamped (-3) 40 "" 25 (by decide)

/-- `validateConractThreshold` errs exactly on a list containing a
strategy with a non-nil threshold below 1. -/
theorem isSome_validateConractThreshold (ss : List Strategy) :
    (validateConractThreshold ss).isSome = true ↔
      ∃ s ∈ ss, ∃ t, s.Threshold = some t ∧ t < 1 := by
  induction ss with
  | nil => simp [validateConractThreshold]
  | cons s rest ih =>
    cases hth : s.Threshold with
    | none =>
      simp only [validateConractThreshold, hth, ih, List.mem_cons]
      constructor
      · rintro ⟨x, hx, t, ht, hlt⟩
        exact ⟨x, Or.inr hx, t, ht, hlt⟩
      · rintro ⟨x, hx | hx, t, ht, hlt⟩
        · rw [hx] at ht; rw [ht] at hth; cases hth
        · exact ⟨x, hx, t, ht, hlt⟩
    | some t =>
      by_cases hlt : t < 1
      · simp only [validateConractThreshold, hth, if_pos hlt, List.mem_cons]
        constructor
        · intro _
          exact ⟨s, Or.inl rfl, t, hth, hlt⟩
        · intro _
          rfl
      · simp only [validateConractThreshold, hth, if_neg hlt, ih, List.mem_cons]
        constructor
        · rintro ⟨x, hx, u, hu, hlt2⟩
          exact ⟨x, Or.inr hx, u, hu, hlt2⟩
        · rintro ⟨x, hx | hx, u, hu, hlt2⟩
          · rw [hx] at hu; rw [hu] at hth; injection hth with h; exact absurd (h ▸ hlt2) hlt
          · exact ⟨x, hx, u, hu, hlt2⟩

/-- C9: `validateConractThreshold` returns an error if and only if some
strategy in the input list has a non-nil `Threshold` strictly less than
1; a list in which every threshold is nil or at least 1 (including the
empty list) is accepted with no error, so community creation never
persists a strategy configured with a sub-1 contract threshold (the
strategy gate of `createCommunity` rejects the request). -/
theorem validateConractThreshold_spec (ss : List Strategy) :
    ((validateConractThreshold ss).isSome = true ↔
      ∃ s ∈ ss, ∃ t, s.Threshold = some t ∧ t < 1) ∧
    ((∃ s ∈ ss, ∃ t, s.Threshold = some t ∧ t < 1) →
      createCommunityValidateStrategies (some ss) = some errIncompleteRequest) ∧
    validateConractThreshold ([] : List Strategy) = none := by
  refine ⟨isSome_validateConractThreshold ss, ?_, rfl⟩
  intro hbad
  have h := (isSome_validateConractThreshold ss).mpr hbad
  simp [createCommunityValidateStrategies, h]

/-- Witness for C9 at a concrete strategy list. -/
theorem validateConractThreshold_spec_witness :
    ((validateConractThreshold [⟨some (1/2)⟩]).isSome = true ↔
      ∃ s ∈ [(⟨some (1/2)⟩ : Strategy)], ∃ t, s.Threshold = some t ∧ t < 1) ∧
    ((∃ s ∈ [(⟨some (1/2)⟩ : Strategy)], ∃ t, s.Threshold = some t ∧ t < 1) →
      createCommunityValidateStrategies (some [⟨some (1/2)⟩]) = some errIncompleteRequest) ∧
    validateConractThreshold ([] : List Strategy) = none :=
  validateConractThreshold_spec [⟨some (1/2)⟩]

/-- C4: refuted on the code — `getResultsForProposal` ignores the error
from `helpers.fetchProposal`, so a tally request with an invalid or
unknown proposal id flows the zero-value proposal onward and crashes on
the nil `Strategy` pointer dereference instead of producing a
user-facing error response. This theorem evaluates the handler at the
failing input: whatever the downstream collaborators would return, the
outcome is a crash, not a response. -/
theorem getResultsForProposal_crashes_on_bad_id (votesRes : Option (List Vote))
    (tallyRes : Option String) (awardRes : Option Unit) :
    getResultsForProposal none votesRes tallyRes awardRes = .crashed := rfl

/-- C3: refuted on the code — in the achievement branch of
`getResultsForProposal`, `respondWithError` is not followed by `return`,
so on an achievement failure the handler first writes the
`errIncompleteRequest` response (HTTP status 400, the first
`WriteHeader` wins) and only then appends the tally JSON to the same
body: the tally read fails at the HTTP level. This theorem evaluates the
handler at the failing input (closed proposal, achievements pending,
award step errors). -/
theorem getResultsForProposal_award_failure_fails_read :
    getResultsForProposal (some closedProposal) (some []) (some "tallyResults") none =
      .responded { status := some 400,
                   body := [errorBody errIncompleteRequest, "tallyResults"] } ∧
    (400 : Nat) ≠ 200 := by
  exact ⟨rfl, by decide⟩

/-- C2: refuted on the code — the achievement guard in
`getResultsForProposal` is a read-the-fetched-flag-then-act sequence,
not a compare-and-swap: in the interleaving where two tally reads on a
newly-closed proposal both fetch the proposal (both observing
`achievements_done = false`) before either awards, the awarding side
effect executes twice. Sequential executions (second fetch after the
first award) award only once, so the divergence is concurrency-only. -/
theorem achievement_award_races :
    (runTally true [.fetch 0, .fetch 1, .award 0, .award 1] initRace).db =
      { achievements_done := true, awardCount := 2 } ∧
    (runTally true [.fetch 0, .award 0, .fetch 1, .award 1] initRace).db =
      { achievements_done := true, awardCount := 1 } := by
  exact ⟨rfl, rfl⟩

/-- C10 counterexample: the error response of one and the same request
(`removeAddressesFromList` with an invalid payload) differs depending on
whether an unrelated earlier request (`addAddressesToList` whose helper
failed with http status 500) has run: the earlier failure mutated the
shared `errIncompleteRequest` singleton, so the status code of an error
response is not a function of the current request alone. -/
theorem errorSingleton_mutation_counterexample :
    (removeAddressesFromList
        (addAddressesToList initialServerState true true (some 500)).2
        true false none).1 ≠
      (removeAddressesFromList initialServerState true false none).1 := by
  decide

/-- C10 (amended): the HTTP status code of an error response is NOT a
function of the current request alone — `addAddressesToList`,
`removeAddressesFromList`, `createListForCommunity` and
`createCommunityUser` assign to the package-level singletons
`errIncompleteRequest.StatusCode` / `errCreateCommunity.StatusCode` on
failure (and `addAddressesToList` then responds with
`errCreateCommunity`, not the singleton it mutated), so a failed request
changes the status code that later, unrelated requests report. -/
theorem errorSingletons_shared_mutation (st : ServerState) (h : Nat) :
    (addAddressesToList st true true (some h)).2.errIncompleteRequest.StatusCode = h ∧
    (addAddressesToList st true true (some h)).1 = some st.errCreateCommunity ∧
    (removeAddressesFromList st true true (some h)).2.errIncompleteRequest.StatusCode = h ∧
    (createListForCommunity st true true (some h)).2.errIncompleteRequest.StatusCode = h ∧
    (createCommunityUser st true true (some h)).2.errCreateCommunity.StatusCode = h ∧
    (createCommunityUser st true true (some h)).1 =
      some { st.errCreateCommunity with StatusCode := h } ∧
    (removeAddressesFromList
        { st with errIncompleteRequest :=
            { st.errIncompleteRequest with StatusCode := h } }
        true false none).1 =
      some { st.errIncompleteRequest with StatusCode := h } := by
  exact ⟨rfl, rfl, rfl, rfl, rfl, rfl, rfl⟩

/-- C5 counterexample: a proposal whose computed status is the closed
terminal state (naturally expired) still accepts an authorized
status-changing update to "cancelled": the update path never consults
the current or computed status, so the stored status changes. -/
theorem updateProposal_terminal_counterexample :
    closedProposal.Computed_status = some "closed" ∧
    updateProposal (some closedProposal) (some cancelPayload) authorGrants
        (some "cid1") true =
      .ok { closedProposal with Status := some "cancelled", Cid := some "cid1" } := by
  exact ⟨rfl, rfl⟩

/-- C5 (amended): the authorized update path accepts only the transition
to status "cancelled" — any other requested status value is rejected
with `errIncompleteRequest` — and every accepted update stores exactly
the status "cancelled"; the path performs no check of the proposal's
current or computed status, so a cancelled, closed or naturally expired
proposal's request to "cancelled" is not rejected (see the
counterexample). -/
theorem updateProposal_only_cancelled (f : Option Proposal) (pl : UpdatePayload)
    (grants : List RoleGrant) (pin : Option String) (dbOk : Bool)
    (hst : pl.Status ≠ "cancelled") :
    updateProposal f (some pl) grants pin dbOk = .err errIncompleteRequest ∧
    ∀ (f2 : Option Proposal) (pl2 : UpdatePayload) (p' : Proposal),
      updateProposal f2 (some pl2) grants pin dbOk = .ok p' →
      p'.Status = some "cancelled" := by
  constructor
  · cases f with
    | none => rfl
    | some p => simp [updateProposal, hst]
  · intro f2 pl2 p' hok
    cases f2 with
    | none => exact UpdateResult.noConfusion hok
    | some p =>
      simp only [updateProposal] at hok
      by_cases hst2 : pl2.Status = "cancelled"
      · rw [if_neg (by simp [hst2])] at hok
        split at hok
        · exact UpdateResult.noConfusion hok
        · split at hok
          · exact UpdateResult.noConfusion hok
          · split at hok
            · injection hok with h
              rw [← h, hst2]
            · exact UpdateResult.noConfusion hok
      · rw [if_pos hst2] at hok
        exact UpdateResult.noConfusion hok

/-- Witness for C5's amended theorem at a concrete request (requested
status "closed" is rejected). -/
theorem updateProposal_only_cancelled_witness :
    (updateProposal (some closedProposal)
        (some { cancelPayload with Status := "closed" }) authorGrants
        (some "cid1") true = .err errIncompleteRequest ∧
      ∀ (f2 : Option Proposal) (pl2 : UpdatePayload) (p' : Proposal),
        updateProposal f2 (some pl2) authorGrants (some "cid1") true = .ok p' →
        p'.Status = some "cancelled") :=
  updateProposal_only_cancelled (some closedProposal)
    { cancelPayload with Status := "closed" } authorGrants (some "cid1") true
    (by decide)

/-- C6: a voucher-authorized update whose voucher signer lacks the
"author" role (directly or by implication) for the target community
fails with the `Forbidden` error, regardless of whether the voucher's
own embedded signatures are individually valid — `vch.signaturesValid`
is unconstrained here; and the direct composite-signature path fails
with the very same `errForbidden`. -/
theorem updateProposal_voucher_forbidden (p : Proposal) (pl : UpdatePayload)
    (grants : List RoleGrant) (vch : Voucher) (pin : Option String) (dbOk : Bool)
    (hst : pl.Status = "cancelled") (hv : pl.Voucher = some vch)
    (hrole : hasRole grants vch.signer p.Community_id "author" = false) :
    updateProposal (some p) (some pl) grants pin dbOk = .err errForbidden ∧
    ∀ pl2 : UpdatePayload, pl2.Status = "cancelled" → pl2.Voucher = none →
      validateUserWithRole pl2.sigValid grants pl2.Signing_addr p.Community_id "author"
        = false →
      updateProposal (some p) (some pl2) grants pin dbOk = .err errForbidden := by
  constructor
  · simp [updateProposal, hst, hv, validateUserWithRoleViaVoucher, hrole]
  · intro pl2 hst2 hv2 hauth
    simp [updateProposal, hst2, hv2, hauth]

/-- Witness for C6: community 1 has no role grants, the voucher's own
signatures are valid, yet the request fails `Forbidden`; the direct path
with valid signatures but no role fails with the same error. -/
theorem updateProposal_voucher_forbidden_witness :
    (updateProposal (some closedProposal)
        (some { Status := "cancelled", Voucher := some ⟨"0xB", true⟩,
                Signing_addr := "0xB", sigValid := true })
        [] (some "cid1") true = .err errForbidden ∧
      ∀ pl2 : UpdatePayload, pl2.Status = "cancelled" → pl2.Voucher = none →
        validateUserWithRole pl2.sigValid [] pl2.Signing_addr
          closedProposal.Community_id "author" = false →
        updateProposal (some closedProposal) (some pl2) [] (some "cid1") true
          = .err errForbidden) :=
  updateProposal_voucher_forbidden closedProposal
    { Status := "cancelled", Voucher := some ⟨"0xB", true⟩,
      Signing_addr := "0xB", sigValid := true }
    [] ⟨"0xB", true⟩ (some "cid1") true rfl rfl rfl

/-- A ledger with no vote for `(p, a)` stores zero votes for the pair. -/
theorem countVotes_eq_zero (l : List Vote) (p : Nat) (a : String)
    (h : hasVote l p a = false) : countVotes l p a = 0 := by
  induction l with
  | nil => rfl
  | cons x xs ih =>
    simp only [hasVote, List.any_cons, Bool.or_eq_false_iff] at h
    obtain ⟨h1, h2⟩ := h
    simp only [countVotes, List.filter_cons, h1]
    exact ih h2

/-- Once a vote for the pair is stored, every further sequence of casts
for the same pair fails and leaves the ledger unchanged. -/
theorem runCasts_replicate_already (l : List Vote) (v : Vote) (n : Nat)
    (h : hasVote l v.Proposal_id v.Addr = true) :
    runCasts (List.replicate n v) l = (List.replicate n (.err errAlreadyVoted), l) := by
  induction n with
  | zero => rfl
  | succ k ih =>
    simp [List.replicate_succ, runCasts, castVote, h, ih]

/-- C1: for every ledger not yet holding a vote by address `A` on
proposal `P`, after a successful cast any further cast attempt by `A` on
`P` fails with `AlreadyVoted` and leaves the ledger unchanged (the
stored vote is neither overwritten nor duplicated); and a serialisation
of `N + 1` concurrent cast attempts with identical input produces
exactly one success followed by `N` `AlreadyVoted` failures, with
exactly one vote stored for `(A, P)`. -/
theorem castVote_unique (l : List Vote) (v : Vote) (n : Nat)
    (h : hasVote l v.Proposal_id v.Addr = false) :
    (∀ v' : Vote, v'.Proposal_id = v.Proposal_id → v'.Addr = v.Addr →
      castVote (v :: l) v' = (.err errAlreadyVoted, v :: l)) ∧
    runCasts (List.replicate (n + 1) v) l =
      (.ok v :: List.replicate n (.err errAlreadyVoted), v :: l) ∧
    countVotes (v :: l) v.Proposal_id v.Addr = 1 := by
  have hmem : hasVote (v :: l) v.Proposal_id v.Addr = true := by
    simp [hasVote, List.any_cons]
  refine ⟨?_, ?_, ?_⟩
  · intro v' hp ha
    have hmem' : hasVote (v :: l) v'.Proposal_id v'.Addr = true := by
      rw [hp, ha]; exact hmem
    simp [castVote, hmem']
  · simp only [List.replicate_succ, runCasts, castVote, h, Bool.false_eq_true,
      if_false, if_neg]
    rw [runCasts_replicate_already (v :: l) v n hmem]
  · simp only [countVotes, List.filter_cons, decide_eq_true_eq]
    have h0 : countVotes l v.Proposal_id v.Addr = 0 := countVotes_eq_zero l _ _ h
    simp only [countVotes] at h0
    simp [h0]

/-- Witness for C1: three identical concurrent casts on an empty ledger —
one success, two `AlreadyVoted` failures, one stored vote. -/
theorem castVote_unique_witness :
    ((∀ v' : Vote, v'.Proposal_id = 1 → v'.Addr = "0xA" →
        castVote [⟨1, "0xA", "yes", 1⟩] v' =
          (.err errAlreadyVoted, [⟨1, "0xA", "yes", 1⟩])) ∧
      runCasts (List.replicate 3 ⟨1, "0xA", "yes", 1⟩) [] =
        (.ok ⟨1, "0xA", "yes", 1⟩ ::
          List.replicate 2 (.err errAlreadyVoted), [⟨1, "0xA", "yes", 1⟩]) ∧
      countVotes [⟨1, "0xA", "yes", 1⟩] 1 "0xA" = 1) :=
  castVote_unique [] ⟨1, "0xA", "yes", 1⟩ 2 (by decide)

/-- Splitting a weighted sum over a list by a predicate on its votes. -/
theorem sum_filter_split (p : Vote → Bool) (w : Vote → Int) (l : List Vote) :
    ((l.filter p).map w).sum + ((l.filter fun v => !(p v)).map w).sum = (l.map w).sum := by
  induction l with
  | nil => rfl
  | cons x xs ih =>
    cases hx : p x <;> simp [List.filter_cons, hx] <;> omega

/-- Removing the votes for one choice does not change the votes for a
different choice. -/
theorem filter_choice_of_ne (l : List Vote) (c c' : String) (hne : c' ≠ c) :
    ((l.filter fun v => !(decide (v.Choice = c))).filter fun v => v.Choice = c') =
      l.filter fun v => v.Choice = c' := by
  rw [List.filter_filter]
  congr 1
  funext v
  by_cases hv : v.Choice = c'
  · simp [hv, hne]
  · simp [hv]

/-- Summing the per-choice tallies over a duplicate-free list of choices
covering the vote list gives the total weighted sum. -/
theorem sum_grouped (w : String → Int) :
    ∀ (cs : List String) (l : List Vote), cs.Nodup → (∀ v ∈ l, v.Choice ∈ cs) →
      (cs.map fun c => tally w l c).sum = (l.map fun v => w v.Addr).sum := by
  intro cs
  induction cs with
  | nil =>
    intro l _ hall
    have hl : l = [] := by
      cases l with
      | nil => rfl
      | cons x xs =>
        exact absurd (hall x (List.mem_cons_self x xs)) (List.not_mem_nil x.Choice)
    subst hl; rfl
  | cons c cs ih =>
    intro l hnd hall
    obtain ⟨hc, hnd'⟩ := List.nodup_cons.mp hnd
    have hall' : ∀ v ∈ l.filter fun v => !(decide (v.Choice = c)), v.Choice ∈ cs := by
      intro v hv
      rw [List.mem_filter] at hv
      rcases List.mem_cons.mp (hall v hv.1) with h | h
      · exact absurd (decide_eq_true h) (by simpa using hv.2)
      · exact h
    have hterm : ∀ c' ∈ cs,
        tally w l c' = tally w (l.filter fun v => !(decide (v.Choice = c))) c' := by
      intro c' hc'
      have hne : c' ≠ c := fun he => hc (he ▸ hc')
      rw [tally, tally, filter_choice_of_ne l c c' hne]
    rw [List.map_cons, List.sum_cons, List.map_congr_left hterm,
      ih (l.filter fun v => !(decide (v.Choice = c))) hnd' hall']
    have hsplit := sum_filter_split (fun v => decide (v.Choice = c)) (fun v => w v.Addr) l
    rw [tally]
    omega

/-- C8: the tally is order-independent — any permutation of the vote
list yields the same choice-to-weight mapping and the same tally sum —
and, when the recorded votes carry pairwise-distinct voter addresses (the
uniqueness invariant), the tally sum equals the sum of the
live-recomputed weight over each distinct voter. -/
theorem tally_order_independent (w : String → Int) (vs1 vs2 : List Vote)
    (hperm : vs1.Perm vs2) (hnd : (vs1.map Vote.Addr).Nodup) :
    (∀ c, tally w vs1 c = tally w vs2 c) ∧
    tallySum w vs1 = tallySum w vs2 ∧
    tallySum w vs1 = ((vs1.map Vote.Addr).dedup.map w).sum := by
  have hpointwise : ∀ c, tally w vs1 c = tally w vs2 c := fun c =>
    ((hperm.filter _).map _).sum_eq
  have htot1 : tallySum w vs1 = (vs1.map fun v => w v.Addr).sum := by
    refine sum_grouped w ((vs1.map Vote.Choice).dedup) vs1 (List.nodup_dedup _) ?_
    intro v hv
    exact List.mem_dedup.mpr (List.mem_map_of_mem Vote.Choice hv)
  have htot2 : tallySum w vs2 = (vs2.map fun v => w v.Addr).sum := by
    refine sum_grouped w ((vs2.map Vote.Choice).dedup) vs2 (List.nodup_dedup _) ?_
    intro v hv
    exact List.mem_dedup.mpr (List.mem_map_of_mem Vote.Choice hv)
  have hsum12 : (vs1.map fun v => w v.Addr).sum = (vs2.map fun v => w v.Addr).sum :=
    (hperm.map _).sum_eq
  refine ⟨hpointwise, by rw [htot1, htot2, hsum12], ?_⟩
  rw [htot1, hnd.dedup, List.map_map]
  rfl

/-- Witness for C8: two votes by distinct voters, listed in both orders. -/
theorem tally_order_independent_witness :
    ((∀ c, tally (fun _ => 1) [⟨1, "0xA", "yes", 1⟩, ⟨1, "0xB", "no", 1⟩] c =
        tally (fun _ => 1) [⟨1, "0xB", "no", 1⟩, ⟨1, "0xA", "yes", 1⟩] c) ∧
      tallySum (fun _ => 1) [⟨1, "0xA", "yes", 1⟩, ⟨1, "0xB", "no", 1⟩] =
        tallySum (fun _ => 1) [⟨1, "0xB", "no", 1⟩, ⟨1, "0xA", "yes", 1⟩] ∧
      tallySum (fun _ => 1) [⟨1, "0xA", "yes", 1⟩, ⟨1, "0xB", "no", 1⟩] =
        ((([⟨1, "0xA", "yes", 1⟩, ⟨1, "0xB", "no", 1⟩] : List Vote).map
          Vote.Addr).dedup.map fun _ => 1).sum) :=
  tally_order_independent (fun _ => 1)
    [⟨1, "0xA", "yes", 1⟩, ⟨1, "0xB", "no", 1⟩]
    [⟨1, "0xB", "no", 1⟩, ⟨1, "0xA", "yes", 1⟩]
    (by decide) (by decide)

end CAST
